import Mathlib

/-!
Verification development for the crypto-trading-bot repository.

The Python source is shallowly embedded in Lean: prices, quantities and
USDT notionals (Python floats) are modelled as rationals, dataclasses as
structures, dict-based registries as association lists with dict
update-in-place semantics, and fallible operations as `Option`/`Except`.
Each definition names the source function it translates.
-/

namespace CryptoBot

/-- Python `1e-12`, the guard used in `normalize_order` denominators
(src/api/bybit_client.py). -/
def eps : ℚ := 1 / 10 ^ 12

/-- Embeds `BybitClient._floor_to_step` (src/api/bybit_client.py lines 376-381):
`if step <= 0: return value` else `math.floor(value / step) * step`. -/
def floorToStep (value step : ℚ) : ℚ :=
  if step ≤ 0 then value else ⌊value / step⌋ * step

/-- Embeds `BybitClient._ceil_to_step` (src/api/bybit_client.py lines 383-388). -/
def ceilToStep (value step : ℚ) : ℚ :=
  if step ≤ 0 then value else ⌈value / step⌉ * step

/-- Models Python fixed-point rendering `f"{x:.nf}"` as a rational: round the
value to `n` decimal places.  Mathlib's `round` rounds half up while Python's
formatting of a binary double rounds the double's decimal expansion half to
even; the two agree on every input used in this development (none is an exact
decimal tie). -/
def roundDp (n : ℕ) (q : ℚ) : ℚ := round (q * 10 ^ n) / 10 ^ n

/-- `q` is an exact integer multiple of the step `s`. -/
def StepMultiple (q s : ℚ) : Prop := ∃ k : ℤ, q = (k : ℚ) * s

/-- Instrument specification as returned by `get_instruments_info`
(src/api/bybit_client.py lines 352-358): qtyStep, minOrderQty, tickSize,
minNotional. -/
structure InstrumentSpec where
  qtyStep : ℚ
  minOrderQty : ℚ
  tickSize : ℚ
  minNotional : ℚ
deriving DecidableEq

/-- The fallback spec used by `normalize_order` when `get_instruments_info`
returns `None` (src/api/bybit_client.py line 406). -/
def defaultSpec : InstrumentSpec := ⟨1, 1, 1 / 10000, 5⟩

/-- Embeds `qty_step = float(spec.get("qtyStep", 1.0) or 1.0)`: a zero (falsy)
qtyStep falls back to 1. -/
def effQtyStep (s : InstrumentSpec) : ℚ := if s.qtyStep = 0 then 1 else s.qtyStep

/-- Embeds `min_qty = float(spec.get("minOrderQty", qty_step) or qty_step)`. -/
def effMinQty (s : InstrumentSpec) : ℚ :=
  if s.minOrderQty = 0 then effQtyStep s else s.minOrderQty

/-- Embeds `tick = float(spec.get("tickSize", 0.0001) or 0.0001)`. -/
def effTick (s : InstrumentSpec) : ℚ := if s.tickSize = 0 then 1 / 10000 else s.tickSize

/-- Embeds `min_notional = float(spec.get("minNotional", 5.0) or 5.0)`. -/
def effMinNotional (s : InstrumentSpec) : ℚ := if s.minNotional = 0 then 5 else s.minNotional

/-- Order side; the source compares `side.lower() == "buy"`. -/
inductive Side where
  | buy
  | sell
deriving DecidableEq

/-- Numeric result of `normalize_order` (the `qty`, `tp`, `sl` fields of the
returned dict). -/
structure NormalizedOrder where
  qty : ℚ
  tp : ℚ
  sl : ℚ
deriving DecidableEq

/-- Python's two-argument `max(a, b)`. -/
def pyMax (a b : ℚ) : ℚ := if b ≤ a then a else b

/-- `raw_qty = position_size_usdt / max(last_price, 1e-12)`
(src/api/bybit_client.py line 413). -/
def normQtyRaw (lastPrice positionSizeUsdt : ℚ) : ℚ :=
  positionSizeUsdt / pyMax lastPrice eps

/-- `qty = self._floor_to_step(raw_qty, qty_step)` (line 414). -/
def normQtyFloored (spec : InstrumentSpec) (lastPrice positionSizeUsdt : ℚ) : ℚ :=
  floorToStep (normQtyRaw lastPrice positionSizeUsdt) (effQtyStep spec)

/-- `if qty < min_qty: qty = min_qty` (lines 415-416). -/
def normQtyMinned (spec : InstrumentSpec) (lastPrice positionSizeUsdt : ℚ) : ℚ :=
  if normQtyFloored spec lastPrice positionSizeUsdt < effMinQty spec then effMinQty spec
  else normQtyFloored spec lastPrice positionSizeUsdt

/-- `if qty * last_price < min_notional: qty = ceil_to_step(...)`
(lines 417-418): the complete quantity pipeline of `normalize_order`. -/
def normQty (spec : InstrumentSpec) (lastPrice positionSizeUsdt : ℚ) : ℚ :=
  if normQtyMinned spec lastPrice positionSizeUsdt * lastPrice < effMinNotional spec then
    ceilToStep (effMinNotional spec / pyMax lastPrice eps) (effQtyStep spec)
  else normQtyMinned spec lastPrice positionSizeUsdt

/-- Embeds `BybitClient.normalize_order` (src/api/bybit_client.py lines
390-442).  `spec?` is the result of `get_instruments_info`; `none` selects the
default spec.  Returns `none` exactly when the source returns `None`
(normalized qty ≤ 0); TP/SL are rounded to the tick with side-aware
direction. -/
def normalizeOrder (spec? : Option InstrumentSpec) (side : Side)
    (lastPrice positionSizeUsdt takeProfit stopLoss : ℚ) : Option NormalizedOrder :=
  let spec := spec?.getD defaultSpec
  let tick := effTick spec
  let qty := normQty spec lastPrice positionSizeUsdt
  if qty ≤ 0 then none
  else
    some ⟨qty,
      if side = Side.buy then floorToStep takeProfit tick else ceilToStep takeProfit tick,
      if side = Side.buy then ceilToStep stopLoss tick else floorToStep stopLoss tick⟩

/-! Position Lifecycle Coordinator (src/trading/position_manager.py), the
`Config` dataclass (src/config.py) and the main loop (src/main.py). -/

/-- Per-signal configuration (src/config.py `SignalConfig`). -/
structure SignalConfig where
  index : String
  frame : String
  tickWindow : ℕ
  indexChangeThreshold : ℚ
  target : ℚ
  direction : ℤ
  reverse : ℕ
deriving DecidableEq

/-- Per-strategy configuration (src/config.py `StrategyConfig`). -/
structure StrategyConfig where
  name : String
  tradePairs : List String
  leverage : ℕ
  tickWindow : ℕ
  priceChangeThreshold : ℚ
  stopTakePercent : ℚ
  positionSize : ℚ
  direction : ℤ
  signals : List (String × SignalConfig)
  enabled : Bool
deriving DecidableEq

/-- `StrategyConfig.get_market_category` (src/config.py lines 62-63). -/
def getMarketCategory (sc : StrategyConfig) : String :=
  if sc.leverage = 1 then "spot" else "linear"

/-- `StrategyConfig.should_take_signal` (src/config.py lines 72-79). -/
def shouldTakeSignal (sc : StrategyConfig) (action : String) : Bool :=
  if sc.direction = 0 then true
  else if sc.direction = 1 then action == "Buy"
  else if sc.direction = -1 then action == "Sell"
  else false

/-- The `Config` dataclass (src/config.py lines 244-267).  Its declared fields
are exactly those of the source; in particular it declares
`max_stop_loss_trades` and no field named `max_stop_loss_streak`.  Fields not
read by any claim (telegram settings, legacy `pairs`, logging) are elided. -/
structure Config where
  apiKey : String
  apiSecret : String
  testnet : Bool
  demoMode : Bool
  max_stop_loss_trades : ℤ
  databasePath : String
  strategies : List (String × StrategyConfig)
deriving DecidableEq

/-- Python attribute lookup for integer-valued attributes on a `Config`
instance.  A `@dataclass` resolves exactly its declared fields; any other
name raises `AttributeError`, modelled as `none`. -/
def Config.intAttr (c : Config) (attr : String) : Option ℤ :=
  if attr = "max_stop_loss_trades" then some c.max_stop_loss_trades else none

/-- Exceptions surfaced by the embedded Python code. -/
inductive PyError where
  | attributeError (name : String)
deriving DecidableEq

/-- `SignalResult` (src/strategy/multi_signal_strategy.py lines 23-40). -/
structure SignalResult where
  signalName : String
  strategyName : String
  action : String
  indexPair : String
  targetPairs : List String
  targetPrice : ℚ
  indexChange : ℚ
  targetChange : ℚ
  triggered : Bool
  slippageOk : Bool
deriving DecidableEq

/-- `SignalRecord` (src/storage/models.py) as persisted by
`execute_multi_signal`. -/
structure SignalRecord where
  pairName : String
  action : String
  dominantChange : ℚ
  targetChange : ℚ
  targetPrice : ℚ
  executed : Bool
deriving DecidableEq

/-- `OrderRecord` (src/storage/models.py), the fields the coordinator
reads and writes. -/
structure OrderRecord where
  pairName : String
  symbol : String
  orderId : String
  side : String
  quantity : ℚ
  entryPrice : ℚ
  takeProfit : ℚ
  stopLoss : ℚ
  status : String
  closePrice : ℚ
  pnl : ℚ
  pnlPercent : ℚ
  closeReason : String
deriving DecidableEq

/-- Exchange calls issued by the coordinator, recorded as a trace.  Order
placement carries the rendered numeric values of the `qty`, `takeProfit` and
`stopLoss` strings. -/
inductive ExchangeCall where
  | getWalletBalance
  | getPosition (category symbol : String)
  | getOrderHistory (category symbol : String) (limit : ℕ)
  | placeMarketOrder (category symbol side : String) (qty tp sl : ℚ)
deriving DecidableEq

/-- Whether a trace element is an order placement. -/
def isPlaceMarketOrder : ExchangeCall → Bool
  | ExchangeCall.placeMarketOrder _ _ _ _ _ _ => true
  | _ => false

/-- In-memory state of `PositionManager` (src/trading/position_manager.py
lines 14-41) together with the rows it has written to the store.
`openPositions` is the `{pair_name: OrderRecord}` dict, kept as an
association list in insertion order. -/
structure PMState where
  openPositions : List (String × OrderRecord)
  savedSignals : List SignalRecord
  savedOrders : List OrderRecord
  walletBalance : ℚ
  totalTrades : ℕ
  profitableTrades : ℕ
  stopLossStreak : ℕ
  maxStopLossStreak : ℕ
deriving DecidableEq

/-- Freshly constructed `PositionManager` (src/trading/position_manager.py
lines 29-39). -/
def pmInit : PMState := ⟨[], [], [], 0, 0, 0, 0, 0⟩

/-- Python dict assignment `d[k] = v` on an association list: update in place
if the key exists, else append. -/
def dictInsert (k : String) (v : OrderRecord) :
    List (String × OrderRecord) → List (String × OrderRecord)
  | [] => [(k, v)]
  | (k', v') :: rest =>
      if k' = k then (k, v) :: rest else (k', v') :: dictInsert k v rest

/-- Python `k in d` on the association list. -/
def dictContains (k : String) (l : List (String × OrderRecord)) : Bool :=
  l.any (fun p => p.1 == k)

/-- Responses from the outside world consumed by the open flow:
the wallet balance returned by `get_wallet_balance` (`none` models a failed
call, keeping the cached balance) and the `orderId` returned by
`place_market_order` (`none` models a rejected order). -/
structure OpenEnv where
  walletBalance : Option ℚ
  placeOrderId : Option String
deriving DecidableEq

/-- The `SignalRecord` built at the top of `execute_multi_signal`
(src/trading/position_manager.py lines 144-151): `executed=False`. -/
def mkSignalRecord (sig : SignalResult) : SignalRecord :=
  ⟨sig.strategyName, sig.action, sig.indexChange, sig.targetChange, sig.targetPrice, false⟩

/-- Raw quantity computed by `_open_multi_position`
(src/trading/position_manager.py line 212): `position_size_usdt / target_price`. -/
def openMultiQty (sc : StrategyConfig) (sig : SignalResult) : ℚ :=
  sc.positionSize / sig.targetPrice

/-- The quantity string `f"{quantity:.4f}"` sent by `_open_multi_position`
(line 213), as a rational. -/
def openMultiQtyStr (sc : StrategyConfig) (sig : SignalResult) : ℚ :=
  roundDp 4 (openMultiQty sc sig)

/-- Raw take-profit of `_open_multi_position` (lines 218-225). -/
def openMultiTakeProfit (sc : StrategyConfig) (sig : SignalResult) : ℚ :=
  if sig.action = "Buy" then sig.targetPrice * (1 + sc.stopTakePercent)
  else sig.targetPrice * (1 - sc.stopTakePercent)

/-- Raw stop-loss of `_open_multi_position` (lines 218-225). -/
def openMultiStopLoss (sc : StrategyConfig) (sig : SignalResult) : ℚ :=
  if sig.action = "Buy" then sig.targetPrice * (1 - sc.stopTakePercent)
  else sig.targetPrice * (1 + sc.stopTakePercent)

/-- Embeds `PositionManager._open_multi_position`
(src/trading/position_manager.py lines 181-294).  Returns the new state, the
trace of exchange calls, and the boolean result.  The qty/TP/SL values placed
are the direct renderings `f"{quantity:.4f}"`, `f"{take_profit:.8f}"`,
`f"{stop_loss:.8f}"` of the unnormalized numbers; `normalize_order` is not
called anywhere in this flow. -/
def openMultiPosition (pm : PMState) (cfg : Config) (sig : SignalResult)
    (env : OpenEnv) : PMState × List ExchangeCall × Bool :=
  match (cfg.strategies.find? (fun p => p.1 == sig.strategyName)).map Prod.snd with
  | none => (pm, [], false)
  | some sc =>
    let pm := { pm with walletBalance := env.walletBalance.getD pm.walletBalance }
    let calls := [ExchangeCall.getWalletBalance]
    if pm.walletBalance ≤ 0 then (pm, calls, false)
    else if sc.positionSize < 5 then (pm, calls, false)
    else
      let targetPair := (sig.targetPairs.headD (sc.tradePairs.headD ""))
      let quantity := openMultiQty sc sig
      let side := if sig.action = "Buy" then "Buy" else "Sell"
      let takeProfit := openMultiTakeProfit sc sig
      let stopLoss := openMultiStopLoss sc sig
      let calls := calls ++ [ExchangeCall.placeMarketOrder (getMarketCategory sc)
        targetPair side (roundDp 4 quantity) (roundDp 8 takeProfit) (roundDp 8 stopLoss)]
      match env.placeOrderId with
      | none => (pm, calls, false)
      | some oid =>
        let order : OrderRecord :=
          ⟨sig.strategyName, targetPair, oid, side, quantity, sig.targetPrice,
            takeProfit, stopLoss, "OPEN", 0, 0, 0, ""⟩
        ({ pm with
            savedOrders := pm.savedOrders ++ [order],
            openPositions := dictInsert sig.strategyName order pm.openPositions,
            totalTrades := pm.totalTrades + 1 }, calls, true)

/-- Embeds `PositionManager.execute_multi_signal`
(src/trading/position_manager.py lines 132-179): persist the signal record
with `executed=False`, then read `self.config.max_stop_loss_streak` for the
streak check — an attribute the `Config` dataclass does not declare — then
check `open_positions`, then call `_open_multi_position`.  On success the
source flips `executed` on the in-memory record only; the stored row is
never updated, so `savedSignals` keeps `executed=false` on every path. -/
def executeMultiSignal (pm : PMState) (cfg : Config) (sig : SignalResult)
    (env : OpenEnv) : PMState × List ExchangeCall × Except PyError Bool :=
  let pm1 := { pm with savedSignals := pm.savedSignals ++ [mkSignalRecord sig] }
  match cfg.intAttr "max_stop_loss_streak" with
  | none => (pm1, [], Except.error (PyError.attributeError "max_stop_loss_streak"))
  | some cap =>
    if cap ≤ (pm1.stopLossStreak : ℤ) then (pm1, [], Except.ok false)
    else if dictContains sig.strategyName pm1.openPositions then (pm1, [], Except.ok false)
    else
      let r := openMultiPosition pm1 cfg sig env
      (r.1, r.2.1, Except.ok r.2.2)

/-- Close-reason inference as written in `_handle_position_closed`
(src/trading/position_manager.py lines 491-496) and, identically, in
`OrderTracker._process_order_update` (src/trading/order_tracker.py lines
106-111): `close_price >= take_profit` ⇒ TP, else `close_price <= stop_loss`
⇒ SL, else MANUAL — with no reference to the order's side. -/
def inferCloseReason (closePrice takeProfit stopLoss : ℚ) : String :=
  if takeProfit ≤ closePrice then "TP"
  else if closePrice ≤ stopLoss then "SL"
  else "MANUAL"

/-- Modelled from the spec: the side-aware close-reason classification that
§4.4 mandates (`closePrice ≥ takeProfit` for Buy / `closePrice ≤ takeProfit`
for Sell ⇒ TP; crossing the stop-loss in the adverse direction for that side
⇒ SL; else MANUAL).  This definition follows the spec's words and exists only
to be compared with `inferCloseReason`, which is what the source computes. -/
def specSideAwareCloseReason (side : String) (closePrice takeProfit stopLoss : ℚ) : String :=
  if side = "Buy" then
    if takeProfit ≤ closePrice then "TP"
    else if closePrice ≤ stopLoss then "SL"
    else "MANUAL"
  else
    if closePrice ≤ takeProfit then "TP"
    else if stopLoss ≤ closePrice then "SL"
    else "MANUAL"

/-- Responses from the outside world consumed by the close flow:
`positionSize symbol` is the reported position size of `get_position`
(`none` models no position / failed call) and `histMatch symbol orderId` is
the close price read from the matching order-history record (`none` models
no matching record in the fetched history). -/
structure CloseEnv where
  positionSize : String → Option ℚ
  histMatch : String → String → Option ℚ

/-- Embeds `PositionManager._handle_position_closed`
(src/trading/position_manager.py lines 469-562): reconcile the close price
from order history, infer the close reason, compute P&L, and update the
stop-loss streak — the streak resets only on `pnl > 0` and increments only on
an inferred "SL"; no timestamp of the last stop-loss is kept and no
time-based reset exists anywhere in the class. -/
def handlePositionClosed (pm : PMState) (order : OrderRecord) (env : CloseEnv) : PMState :=
  let matched := env.histMatch order.symbol order.orderId
  let closePrice := matched.getD order.entryPrice
  let closeReason :=
    match matched with
    | some cp => inferCloseReason cp order.takeProfit order.stopLoss
    | none => "UNKNOWN"
  let pnl :=
    if order.side = "Buy" then (closePrice - order.entryPrice) * order.quantity
    else (order.entryPrice - closePrice) * order.quantity
  if 0 < pnl then
    { pm with profitableTrades := pm.profitableTrades + 1, stopLossStreak := 0 }
  else if closeReason = "SL" then
    { pm with stopLossStreak := pm.stopLossStreak + 1,
              maxStopLossStreak := max pm.maxStopLossStreak (pm.stopLossStreak + 1) }
  else pm

/-- Embeds `PositionManager.check_positions`
(src/trading/position_manager.py lines 451-467): positions whose exchange
size is absent or zero are handled as closed and then deleted from
`open_positions`. -/
def checkPositions (pm : PMState) (env : CloseEnv) : PMState :=
  let closed := pm.openPositions.filter (fun p => (env.positionSize p.2.symbol).getD 0 = 0)
  let pm' := closed.foldl (fun s p => handlePositionClosed s p.2 env) pm
  { pm' with
      openPositions := pm'.openPositions.filter
        (fun p => ¬ closed.any (fun c => c.1 == p.1)) }

/-- Embeds the startup restore (src/main.py lines 121-124): every OPEN order
loaded from the store is assigned into `open_positions[order.pair_name]`. -/
def restoreOpenOrders (pm : PMState) (orders : List OrderRecord) : PMState :=
  { pm with openPositions := orders.foldl (fun m o => dictInsert o.pairName o m) pm.openPositions }

/-- Outcome of one main-loop iteration. -/
inductive LoopOutcome where
  | halted
  | ran
  | errorCaught (e : PyError)
deriving DecidableEq

/-- Embeds the body of `TradingBot._main_loop` (src/main.py lines 174-202):
the halt check reads `self.config.max_stop_loss_streak`; an exception in the
body is caught by the `except` clause, which logs, sleeps and continues with
the state unchanged.  No routine in the loop resets the stop-loss streak by
elapsed time. -/
def mainLoopIter (cfg : Config) (pm : PMState) (env : CloseEnv) : PMState × LoopOutcome :=
  match cfg.intAttr "max_stop_loss_streak" with
  | none => (pm, LoopOutcome.errorCaught (PyError.attributeError "max_stop_loss_streak"))
  | some cap =>
    if cap ≤ (pm.stopLossStreak : ℤ) then (pm, LoopOutcome.halted)
    else (checkPositions pm env, LoopOutcome.ran)

/-- States of the coordinator reachable from a fresh `PositionManager` by the
operations the program composes: the startup restore, `execute_multi_signal`
with arbitrary inputs and external responses, and `check_positions`. -/
inductive PMReach : PMState → Prop
  | init : PMReach pmInit
  | restore {s : PMState} (orders : List OrderRecord) :
      PMReach s → PMReach (restoreOpenOrders s orders)
  | execMulti {s : PMState} (cfg : Config) (sig : SignalResult) (env : OpenEnv) :
      PMReach s → PMReach (executeMultiSignal s cfg sig env).1
  | check {s : PMState} (env : CloseEnv) :
      PMReach s → PMReach (checkPositions s env)

/-- Number of OPEN order records held for a strategy name in the coordinator's
`open_positions`. -/
def countOpenFor (pm : PMState) (name : String) : ℕ :=
  (pm.openPositions.filter (fun p => p.1 == name && p.2.status == "OPEN")).length

/-! Market-Data Fan-Out (src/api/global_market_data_manager.py). -/

/-- `Kline` (src/api/common.py); the source's `open` field is rendered
`openPrice` because `open` is a Lean keyword. -/
structure Kline where
  timestamp : ℤ
  openPrice : ℚ
  high : ℚ
  low : ℚ
  close : ℚ
  volume : ℚ
  confirm : Bool
deriving DecidableEq

/-- `SubscriptionRequest` (src/api/global_market_data_manager.py lines 23-30);
the callback is identified by the owning strategy's name. -/
structure SubscriptionRequest where
  strategyName : String
  symbol : String
  frame : String
  sourceType : String
deriving DecidableEq

/-- Subscription key: the source keys `subscriptions` by `(symbol, frame)`
only — no category component (line 55). -/
abbrev SubKey := String × String

/-- State of `GlobalMarketDataManager` (lines 44-68). -/
structure GMDMState where
  subscriptions : List (SubKey × List SubscriptionRequest)
  registeredStrategies : List String
  activeWsSubscriptions : List SubKey
deriving DecidableEq

/-- Fresh manager. -/
def gmdmInit : GMDMState := ⟨[], [], []⟩

/-- Python dict lookup `d.get(k)` on the subscriptions map. -/
def lookupSubs (m : List (SubKey × List SubscriptionRequest)) (k : SubKey) :
    Option (List SubscriptionRequest) :=
  (m.find? (fun e => e.1 == k)).map Prod.snd

/-- Python dict assignment `d[k] = l` on the subscriptions map. -/
def setSubs : List (SubKey × List SubscriptionRequest) → SubKey →
    List SubscriptionRequest → List (SubKey × List SubscriptionRequest)
  | [], k, l => [(k, l)]
  | (k', l') :: rest, k, l =>
      if k' == k then (k, l) :: rest else (k', l') :: setSubs rest k l

/-- The subscriber list registered under a key (empty when absent). -/
def entriesAt (st : GMDMState) (k : SubKey) : List SubscriptionRequest :=
  (lookupSubs st.subscriptions k).getD []

/-- Embeds `GlobalMarketDataManager._add_subscription` (lines 123-149):
ensure the key exists, then append the request unless the strategy already
has an entry under that key. -/
def addSubscription (st : GMDMState) (name symbol frame srcType : String) : GMDMState :=
  let key : SubKey := (symbol, frame)
  let cur := entriesAt st key
  if cur.any (fun s => s.strategyName == name) then
    { st with subscriptions := setSubs st.subscriptions key cur }
  else
    { st with subscriptions := setSubs st.subscriptions key (cur ++ [⟨name, symbol, frame, srcType⟩]) }

/-- Source-type resolution in `register_strategy` (line 90):
`"polling" if signal_config.frame.endswith("s") else "websocket"`.  The
single-character suffix test is modelled on the string's character list. -/
def sourceTypeFor (frame : String) : String :=
  if frame.data.getLast? = some 's' then "polling" else "websocket"

/-- The flattened sequence of `_add_subscription` requests issued by
`register_strategy` (lines 87-111): for each signal, the index pair followed
by every trade pair, all at the signal's frame. -/
def regRequests (cfg : StrategyConfig) : List (String × String × String) :=
  cfg.signals.flatMap (fun sig =>
    let srcType := sourceTypeFor sig.2.frame
    (sig.2.index, sig.2.frame, srcType) :: cfg.tradePairs.map (fun p => (p, sig.2.frame, srcType)))

/-- Runs a sequence of `_add_subscription` calls for one strategy. -/
def processRequests (name : String) : List (String × String × String) → GMDMState → GMDMState
  | [], st => st
  | (sym, fr, ty) :: rest, st => processRequests name rest (addSubscription st name sym fr ty)

/-- Embeds `GlobalMarketDataManager.register_strategy` (lines 72-121): an
already-registered name returns immediately; otherwise all subscription
requests are added and the name is recorded. -/
def registerStrategy (st : GMDMState) (cfg : StrategyConfig) : GMDMState :=
  if cfg.name ∈ st.registeredStrategies then st
  else
    let st' := processRequests cfg.name (regRequests cfg) st
    { st' with registeredStrategies := st'.registeredStrategies ++ [cfg.name] }

/-- The keys for which `_start_websocket_subscriptions` (lines 233-261) opens
a WS kline stream: every key whose subscriber list contains a websocket
entry, each subscribed once (the source collects them into a set). -/
def wsKeys (st : GMDMState) : List SubKey :=
  (st.subscriptions.filter (fun e => e.2.any (fun s => s.sourceType == "websocket"))).map Prod.fst

/-- Embeds `GlobalMarketDataManager._ws_callback` (lines 263-280) as the list
of subscriber entries a bar for `symbol` is handed to: unconfirmed bars go
nowhere; otherwise every websocket entry of every key whose symbol component
matches receives the bar — the key's frame component is not compared (the
callback receives only `(symbol, kline)`). -/
def wsDeliveries (st : GMDMState) (symbol : String) (k : Kline) : List SubscriptionRequest :=
  if !k.confirm then []
  else
    (st.subscriptions.filter (fun e => e.1.1 == symbol)).flatMap
      (fun e => e.2.filter (fun s => s.sourceType == "websocket"))

/-- Embeds `GlobalMarketDataManager._distribute_polling_data` (lines 379-395):
within a polling group, a synthetic bar for `(symbol, frame)` goes to the
subscriptions matching both symbol and frame. -/
def pollingDeliveries (subs : List SubscriptionRequest) (symbol frame : String) :
    List SubscriptionRequest :=
  subs.filter (fun s => s.symbol == symbol && s.frame == frame)

/-! Multi-Signal Strategy Engine buffers and trigger
(src/strategy/multi_signal_strategy.py). -/

/-- The deque capacity chosen by `_initialize_buffers` (line 98):
`signal_config.tick_window if signal_config.tick_window > 0 else 2`. -/
def bufferCapacity (sc : SignalConfig) : ℕ :=
  if 0 < sc.tickWindow then sc.tickWindow else 2

/-- The required buffer length computed by `_check_signal` (line 239), the
same expression as `bufferCapacity`. -/
def requiredSize (sc : SignalConfig) : ℕ :=
  if 0 < sc.tickWindow then sc.tickWindow else 2

/-- Embeds `_initialize_buffers` (lines 95-109): for each signal, the index
buffer capacity and the capacity of the buffer created per trade pair. -/
def initializeBuffers (cfg : StrategyConfig) : List (String × (ℕ × List (String × ℕ))) :=
  cfg.signals.map (fun sig =>
    (sig.1, (bufferCapacity sig.2, cfg.tradePairs.map (fun p => (p, bufferCapacity sig.2)))))

/-- Outcome of `_check_signal` for one trade pair. -/
inductive TriggerOutcome where
  | skip
  | signal (action : String) (indexChange targetChange : ℚ) (slippageOk : Bool)
deriving DecidableEq

/-- Embeds the per-trade-pair body of `_check_signal` (lines 235-333) as a
function of the two buffers and the current last price: length gates,
endpoint selection, zero-price guard, threshold/direction/target/co-movement
gates, reverse inversion, strategy-direction filter, and the slippage check
(a zero current price is skipped in the source via the warning branch). -/
def checkSignalPair (cfg : StrategyConfig) (sc : SignalConfig)
    (indexBuf pairBuf : List ℚ) (currentPrice : ℚ) : TriggerOutcome :=
  if indexBuf.length < requiredSize sc then TriggerOutcome.skip
  else if pairBuf.length < requiredSize sc then TriggerOutcome.skip
  else
    let i0 := if 0 < sc.tickWindow then indexBuf.headD 0 else indexBuf.getD (indexBuf.length - 2) 0
    let i1 := indexBuf.getD (indexBuf.length - 1) 0
    let t0 := if 0 < sc.tickWindow then pairBuf.headD 0 else pairBuf.getD (pairBuf.length - 2) 0
    let t1 := pairBuf.getD (pairBuf.length - 1) 0
    if i0 = 0 ∨ t0 = 0 then TriggerOutcome.skip
    else
      let indexChange := (i1 - i0) / i0 * 100
      let targetChange := (t1 - t0) / t0 * 100
      if |indexChange| < sc.indexChangeThreshold then TriggerOutcome.skip
      else if sc.direction = 1 ∧ indexChange < 0 then TriggerOutcome.skip
      else if sc.direction = -1 ∧ 0 < indexChange then TriggerOutcome.skip
      else if sc.target ≤ |targetChange| then TriggerOutcome.skip
      else if ¬ ((0 < indexChange ∧ 0 < targetChange) ∨ (indexChange < 0 ∧ targetChange < 0)) then
        TriggerOutcome.skip
      else
        let rawAction := if 0 < indexChange then "Buy" else "Sell"
        let action :=
          if sc.reverse = 1 then (if rawAction = "Buy" then "Sell" else "Buy") else rawAction
        if ¬ shouldTakeSignal cfg action then TriggerOutcome.skip
        else if currentPrice = 0 then TriggerOutcome.skip
        else
          TriggerOutcome.signal action indexChange targetChange
            (|(currentPrice - t1) / t1| * 100 ≤ cfg.priceChangeThreshold)

/-! Concrete inputs used to evaluate the embedded code. -/

/-- A signal configuration: index BTCUSDT on the 1-minute frame, window 5. -/
def c1SignalCfg : SignalConfig := ⟨"BTCUSDT", "1", 5, 1, 8 / 10, 0, 0⟩

/-- A futures strategy with 100 USDT position size and 0.5 % stop/take. -/
def c1Strategy : StrategyConfig :=
  ⟨"S", ["WIFUSDT"], 2, 5, 1, 1 / 200, 100, 0, [("s1", c1SignalCfg)], true⟩

/-- A `Config` holding `c1Strategy` with `max_stop_loss_trades = 3`. -/
def c1Config : Config := ⟨"k", "s", true, false, 3, "data/trading.db", [("S", c1Strategy)]⟩

/-- A Buy signal for strategy `S` at target price 0.415. -/
def c1Sig : SignalResult :=
  ⟨"s1", "S", "Buy", "BTCUSDT", ["WIFUSDT"], 83 / 200, 12 / 10, 7 / 10, true, true⟩

/-- Exchange responses: wallet equity 1000 USDT, order accepted. -/
def c1Env : OpenEnv := ⟨some 1000, some "oid1"⟩

/-- Instrument spec with qty-step 1 and tick 1e-4 (the spec's normalization
example for WIFUSDT). -/
def c1Spec : InstrumentSpec := ⟨1, 1, 1 / 10000, 5⟩

/-- Coordinator state with a stop-loss streak of 5 (and, per the spec's
scenario, a last stop-loss more than 24 hours in the past — the source keeps
no such timestamp). -/
def c3State : PMState := { pmInit with stopLossStreak := 5 }

/-- A Sell position: entry 100, take-profit 99, stop-loss 101. -/
def c4Order : OrderRecord :=
  ⟨"S", "WIFUSDT", "oid4", "Sell", 1, 100, 99, 101, "OPEN", 0, 0, 0, ""⟩

/-- Close-flow responses: the position is gone and the matching history
record reports close price 101 — the Sell order's stop-loss. -/
def c4Env : CloseEnv := ⟨fun _ => none, fun _ _ => some 101⟩

/-- Coordinator state with a stop-loss streak equal to the configured cap. -/
def c6State : PMState := { pmInit with stopLossStreak := 3 }

/-- Signal on the 1-minute frame for BTCUSDT. -/
def c5SigX : SignalConfig := ⟨"BTCUSDT", "1", 5, 1, 1, 0, 0⟩

/-- Signal on the 5-minute frame for the same symbol. -/
def c5SigY : SignalConfig := ⟨"BTCUSDT", "5", 5, 1, 1, 0, 0⟩

/-- Strategy X subscribed to BTCUSDT at the 1-minute frame. -/
def c5CfgX : StrategyConfig :=
  ⟨"X", ["WIFUSDT"], 2, 5, 1, 1 / 200, 100, 0, [("s1", c5SigX)], true⟩

/-- Strategy Y subscribed to BTCUSDT at the 5-minute frame. -/
def c5CfgY : StrategyConfig :=
  ⟨"Y", ["WIFUSDT"], 2, 5, 1, 1 / 200, 100, 0, [("s1", c5SigY)], true⟩

/-- Fan-out state after both strategies registered. -/
def c5State : GMDMState := registerStrategy (registerStrategy gmdmInit c5CfgX) c5CfgY

/-- A confirmed bar for BTCUSDT. -/
def c5Bar : Kline := ⟨1700000000000, 1, 1, 1, 1, 0, true⟩

/-- Strategy A: BTCUSDT index at the 1-minute frame, trade pair WIFUSDT. -/
def c7A : StrategyConfig :=
  ⟨"A", ["WIFUSDT"], 2, 5, 1, 1 / 200, 100, 0, [("s1", c5SigX)], true⟩

/-- Strategy B: the same subscriptions as A under a different name. -/
def c7B : StrategyConfig :=
  ⟨"B", ["WIFUSDT"], 2, 5, 1, 1 / 200, 100, 0, [("s1", c5SigX)], true⟩

/-- A signal configuration with tick-window 1. -/
def c9TickOne : SignalConfig := ⟨"BTCUSDT", "1", 1, 1, 1, 0, 0⟩

/-- A signal configuration with tick-window 2, index threshold 1 %,
target cap 0.8 %. -/
def c9Wsc : SignalConfig := ⟨"BTCUSDT", "1", 2, 1, 8 / 10, 0, 0⟩

/-! Theorems.  Shared helper lemmas come first, then one theorem per claim
with its witness or counterexample. -/

theorem floorToStep_le (v s : ℚ) (hs : 0 < s) : floorToStep v s ≤ v := by
  unfold floorToStep
  rw [if_neg (not_le.mpr hs)]
  calc (⌊v / s⌋ : ℚ) * s ≤ (v / s) * s :=
        mul_le_mul_of_nonneg_right (Int.floor_le (v / s)) hs.le
    _ = v := div_mul_cancel₀ v hs.ne'

theorem lt_floorToStep_add (v s : ℚ) (hs : 0 < s) : v < floorToStep v s + s := by
  unfold floorToStep
  rw [if_neg (not_le.mpr hs)]
  have h1 : v / s < (⌊v / s⌋ : ℚ) + 1 := Int.lt_floor_add_one (v / s)
  have h2 : (v / s) * s < ((⌊v / s⌋ : ℚ) + 1) * s := mul_lt_mul_of_pos_right h1 hs
  rw [div_mul_cancel₀ v hs.ne'] at h2
  nlinarith [h2]

theorem le_ceilToStep (v s : ℚ) (hs : 0 < s) : v ≤ ceilToStep v s := by
  unfold ceilToStep
  rw [if_neg (not_le.mpr hs)]
  calc v = (v / s) * s := (div_mul_cancel₀ v hs.ne').symm
    _ ≤ (⌈v / s⌉ : ℚ) * s := mul_le_mul_of_nonneg_right (Int.le_ceil (v / s)) hs.le

theorem stepMultiple_floorToStep (v s : ℚ) (hs : 0 < s) :
    StepMultiple (floorToStep v s) s := by
  refine ⟨⌊v / s⌋, ?_⟩
  unfold floorToStep
  rw [if_neg (not_le.mpr hs)]

theorem stepMultiple_ceilToStep (v s : ℚ) (hs : 0 < s) :
    StepMultiple (ceilToStep v s) s := by
  refine ⟨⌈v / s⌉, ?_⟩
  unfold ceilToStep
  rw [if_neg (not_le.mpr hs)]

theorem eps_pos : (0 : ℚ) < eps := by norm_num [eps]

/-- A successful `normalize_order` returns exactly the `normQty` quantity. -/
theorem normalizeOrder_qty (spec? : Option InstrumentSpec) (side : Side)
    (lp pos tp sl : ℚ) (r : NormalizedOrder)
    (hr : normalizeOrder spec? side lp pos tp sl = some r) :
    r.qty = normQty (spec?.getD defaultSpec) lp pos := by
  unfold normalizeOrder at hr
  by_cases h0 : normQty (spec?.getD defaultSpec) lp pos ≤ 0
  · rw [if_pos h0] at hr
    exact absurd hr (by simp)
  · rw [if_neg h0] at hr
    simp only [Option.some.injEq] at hr
    rw [← hr]

theorem pyMax_eq_left {a b : ℚ} (h : b ≤ a) : pyMax a b = a := if_pos h

theorem c8_helper_notional (spec : InstrumentSpec) (lp pos : ℚ)
    (hlp : eps ≤ lp) (hstep : 0 < effQtyStep spec) :
    effMinNotional spec ≤ normQty spec lp pos * lp := by
  have hlp0 : 0 < lp := lt_of_lt_of_le eps_pos hlp
  have hceil : effMinNotional spec ≤
      ceilToStep (effMinNotional spec / pyMax lp eps) (effQtyStep spec) * lp := by
    rw [pyMax_eq_left hlp]
    have hb := le_ceilToStep (effMinNotional spec / lp) (effQtyStep spec) hstep
    calc effMinNotional spec = (effMinNotional spec / lp) * lp := by field_simp
      _ ≤ ceilToStep (effMinNotional spec / lp) (effQtyStep spec) * lp :=
          mul_le_mul_of_nonneg_right hb hlp0.le
  unfold normQty
  split_ifs with h1
  · exact hceil
  · exact not_lt.mp h1

theorem c8_helper_multiple (spec : InstrumentSpec) (lp pos : ℚ)
    (hstep : 0 < effQtyStep spec)
    (hmin : StepMultiple (effMinQty spec) (effQtyStep spec)) :
    StepMultiple (normQty spec lp pos) (effQtyStep spec) := by
  unfold normQty normQtyMinned
  split_ifs with h1 h2 h2
  · exact stepMultiple_ceilToStep _ _ hstep
  · exact hmin
  · exact stepMultiple_ceilToStep _ _ hstep
  · exact stepMultiple_floorToStep _ _ hstep

/-- C8: the step-rounding laws hold as stated, and the normalization
properties hold under the conditions the counterexample forces: for a
successful `normalize_order` with last price at least the `1e-12` guard and a
positive effective qty-step, `qty · lastPrice ≥ min-notional`, and `qty` is
an exact multiple of qty-step provided min-qty itself is (the min-qty bump
copies `min_qty` verbatim, so a min-qty that is not a multiple of the step
propagates). -/
theorem c8_normalization_laws (v s : ℚ) (hs : 0 < s)
    (spec? : Option InstrumentSpec) (side : Side) (lp pos tp sl : ℚ)
    (r : NormalizedOrder) (hlp : eps ≤ lp)
    (hstep : 0 < effQtyStep (spec?.getD defaultSpec))
    (hmin : StepMultiple (effMinQty (spec?.getD defaultSpec)) (effQtyStep (spec?.getD defaultSpec)))
    (hr : normalizeOrder spec? side lp pos tp sl = some r) :
    (floorToStep v s ≤ v ∧ v < floorToStep v s + s ∧ v ≤ ceilToStep v s)
    ∧ effMinNotional (spec?.getD defaultSpec) ≤ r.qty * lp
    ∧ StepMultiple r.qty (effQtyStep (spec?.getD defaultSpec)) := by
  have hq := normalizeOrder_qty spec? side lp pos tp sl r hr
  refine ⟨⟨floorToStep_le v s hs, lt_floorToStep_add v s hs, le_ceilToStep v s hs⟩, ?_, ?_⟩
  · rw [hq]
    exact c8_helper_notional (spec?.getD defaultSpec) lp pos hlp hstep
  · rw [hq]
    exact c8_helper_multiple (spec?.getD defaultSpec) lp pos hstep hmin

/-- Witness for C8's amended theorem at concrete inputs: step 1, min-qty 1,
tick 0.1, min-notional 5, last price 10, 50 USDT. -/
theorem c8_witness :
    (0 : ℚ) < 1 ∧ eps ≤ (10 : ℚ)
    ∧ 0 < effQtyStep ((some ⟨1, 1, 1 / 10, 5⟩ : Option InstrumentSpec).getD defaultSpec)
    ∧ StepMultiple (effMinQty ((some ⟨1, 1, 1 / 10, 5⟩ : Option InstrumentSpec).getD defaultSpec))
        (effQtyStep ((some ⟨1, 1, 1 / 10, 5⟩ : Option InstrumentSpec).getD defaultSpec))
    ∧ normalizeOrder (some ⟨1, 1, 1 / 10, 5⟩) Side.buy 10 50 10 9 = some ⟨5, 10, 9⟩
    ∧ ((floorToStep (7 / 2) 1 ≤ (7 / 2 : ℚ) ∧ (7 / 2 : ℚ) < floorToStep (7 / 2) 1 + 1
          ∧ (7 / 2 : ℚ) ≤ ceilToStep (7 / 2) 1)
        ∧ effMinNotional ((some ⟨1, 1, 1 / 10, 5⟩ : Option InstrumentSpec).getD defaultSpec) ≤
            (5 : ℚ) * 10
        ∧ StepMultiple (5 : ℚ)
            (effQtyStep ((some ⟨1, 1, 1 / 10, 5⟩ : Option InstrumentSpec).getD defaultSpec))) :=
  ⟨by norm_num, by norm_num [eps], by norm_num [effQtyStep, defaultSpec],
   ⟨1, by norm_num [effMinQty, effQtyStep, defaultSpec]⟩, by
     norm_num [normalizeOrder, normQty, normQtyMinned, normQtyFloored, normQtyRaw,
       pyMax, effQtyStep, effMinQty, effTick, effMinNotional, defaultSpec,
       floorToStep, ceilToStep, eps],
   c8_normalization_laws (7 / 2) 1 (by norm_num) (some ⟨1, 1, 1 / 10, 5⟩) Side.buy 10 50 10 9
     ⟨5, 10, 9⟩ (by norm_num [eps]) (by norm_num [effQtyStep, defaultSpec])
     ⟨1, by norm_num [effMinQty, effQtyStep, defaultSpec]⟩ (by
       norm_num [normalizeOrder, normQty, normQtyMinned, normQtyFloored, normQtyRaw,
         pyMax, effQtyStep, effMinQty, effTick, effMinNotional, defaultSpec,
         floorToStep, ceilToStep, eps])⟩

/-- Counterexample to C8 as stated: with qty-step 1 and min-qty 1.5
(min-qty ≥ qty-step, as the data model requires, but not a multiple),
`normalize_order` succeeds with qty = 1.5, not a multiple of the step; and
with last price 0 it succeeds with qty · lastPrice = 0 < min-notional. -/
theorem c8_counterexample :
    (normalizeOrder (some ⟨1, 3 / 2, 1 / 10, 5⟩) Side.buy 10 12 10 9 = some ⟨3 / 2, 10, 9⟩
      ∧ ¬ StepMultiple (3 / 2 : ℚ) (effQtyStep ⟨1, 3 / 2, 1 / 10, 5⟩))
    ∧ (normalizeOrder (some ⟨1, 1, 1 / 10, 5⟩) Side.buy 0 7 1 1 = some ⟨5 * 10 ^ 12, 1, 1⟩
      ∧ ¬ effMinNotional ⟨1, 1, 1 / 10, 5⟩ ≤ (5 * 10 ^ 12 : ℚ) * 0) := by
  refine ⟨⟨?_, ?_⟩, ⟨?_, by norm_num [effMinNotional]⟩⟩
  · norm_num [normalizeOrder, normQty, normQtyMinned, normQtyFloored, normQtyRaw,
      pyMax, effQtyStep, effMinQty, effTick, effMinNotional, floorToStep, ceilToStep, eps]
  swap
  · norm_num [normalizeOrder, normQty, normQtyMinned, normQtyFloored, normQtyRaw,
      pyMax, effQtyStep, effMinQty, effTick, effMinNotional, floorToStep, ceilToStep, eps]
  rintro ⟨k, hk⟩
  have hstep : effQtyStep ⟨1, 3 / 2, 1 / 10, 5⟩ = 1 := by norm_num [effQtyStep]
  rw [hstep, mul_one] at hk
  have h3 : (3 : ℚ) = (k : ℚ) * 2 := by
    field_simp at hk
    linarith
  have h4 : (3 : ℤ) = k * 2 := by exact_mod_cast h3
  omega

/-- A `Config` dataclass instance resolves no attribute named
`max_stop_loss_streak`. -/
theorem config_intAttr_streak (cfg : Config) :
    cfg.intAttr "max_stop_loss_streak" = none := by
  unfold Config.intAttr
  rw [if_neg (by decide : ¬ ("max_stop_loss_streak" = "max_stop_loss_trades"))]

/-- C1: the multi-signal open flow does not produce its order strings through
`normalize_order`.  At a concrete input the order that becomes OPEN is placed
with qty `240.9639` — `f"{100/0.415:.4f}"` — which is not a multiple of the
instrument's qty-step 1, and TP `0.41707500` — `f"{tp:.8f}"` — which is not a
multiple of the tick 1e-4, while `normalize_order` on the very same input
returns qty 240, TP 0.4170, SL 0.4130. -/
theorem c1_open_flow_bypasses_normalization :
    (openMultiPosition pmInit c1Config c1Sig c1Env).2.1 =
      [ExchangeCall.getWalletBalance,
       ExchangeCall.placeMarketOrder "linear" "WIFUSDT" "Buy"
         (2409639 / 10000) (16683 / 40000) (16517 / 40000)]
    ∧ (openMultiPosition pmInit c1Config c1Sig c1Env).2.2 = true
    ∧ ((openMultiPosition pmInit c1Config c1Sig c1Env).1.openPositions.map
        (fun p => (p.1, p.2.status))) = [("S", "OPEN")]
    ∧ ¬ StepMultiple (2409639 / 10000 : ℚ) c1Spec.qtyStep
    ∧ ¬ StepMultiple (16683 / 40000 : ℚ) c1Spec.tickSize
    ∧ normalizeOrder (some c1Spec) Side.buy (83 / 200) 100 (16683 / 40000) (16517 / 40000)
        = some ⟨240, 417 / 1000, 413 / 1000⟩ := by
  refine ⟨?_, ?_, ?_, ?_, ?_, ?_⟩
  · norm_num [openMultiPosition, c1Config, c1Sig, c1Env, c1Strategy, c1SignalCfg, pmInit,
      openMultiQty, openMultiTakeProfit, openMultiStopLoss, roundDp, round_eq,
      getMarketCategory, dictInsert]
  · norm_num [openMultiPosition, c1Config, c1Sig, c1Env, c1Strategy, c1SignalCfg, pmInit,
      openMultiQty, openMultiTakeProfit, openMultiStopLoss, roundDp, round_eq,
      getMarketCategory, dictInsert]
  · norm_num [openMultiPosition, c1Config, c1Sig, c1Env, c1Strategy, c1SignalCfg, pmInit,
      openMultiQty, openMultiTakeProfit, openMultiStopLoss, roundDp, round_eq,
      getMarketCategory, dictInsert]
  · rintro ⟨k, hk⟩
    rw [show c1Spec.qtyStep = 1 from rfl, mul_one] at hk
    have h1 : (2409639 : ℚ) = (k : ℚ) * 10000 := by
      field_simp at hk
      linarith
    have h2 : (2409639 : ℤ) = k * 10000 := by exact_mod_cast h1
    omega
  · rintro ⟨k, hk⟩
    rw [show c1Spec.tickSize = 1 / 10000 from rfl] at hk
    have h1 : (16683 : ℚ) * 10000 = (k : ℚ) * 40000 := by
      field_simp at hk
      linarith
    have h2 : (16683 : ℤ) * 10000 = k * 40000 := by exact_mod_cast h1
    omega
  · have hceil : ⌈(16517 / 4 : ℚ)⌉ = (4130 : ℤ) := by
      rw [Int.ceil_eq_iff] ; norm_num
    norm_num [normalizeOrder, normQty, normQtyMinned, normQtyFloored, normQtyRaw,
      pyMax, effQtyStep, effMinQty, effTick, effMinNotional, c1Spec,
      floorToStep, ceilToStep, eps, hceil]

/-- C10: for every state, configuration, signal and environment,
`execute_multi_signal` persists the `SignalRecord` with `executed=false` and
then stops with `AttributeError` at the streak-cap check, because the
`Config` dataclass declares `max_stop_loss_trades` but no
`max_stop_loss_streak`; no balance refresh, open-position insertion or order
placement happens (the exchange-call trace is empty and the rest of the
state is untouched). -/
theorem c10_streak_check_attribute_error (pm : PMState) (cfg : Config)
    (sig : SignalResult) (env : OpenEnv) :
    cfg.intAttr "max_stop_loss_streak" = none
    ∧ executeMultiSignal pm cfg sig env =
        ({ pm with savedSignals := pm.savedSignals ++ [mkSignalRecord sig] }, [],
          Except.error (PyError.attributeError "max_stop_loss_streak"))
    ∧ (mkSignalRecord sig).executed = false := by
  refine ⟨config_intAttr_streak cfg, ?_, rfl⟩
  unfold executeMultiSignal
  rw [config_intAttr_streak cfg]

/-- C6: whenever the stop-loss streak is at least the configured cap when
`execute_multi_signal` runs, no `placeMarketOrder` call is emitted on that
run and the persisted `SignalRecord` keeps `executed=false`.  (On the source
as written this holds for every input: the run stops at the streak-cap check
itself, whose attribute read raises before any exchange call.) -/
theorem c6_circuit_breaker_blocks_order (pm : PMState) (cfg : Config)
    (sig : SignalResult) (env : OpenEnv)
    (h : cfg.max_stop_loss_trades ≤ (pm.stopLossStreak : ℤ)) :
    (∀ c ∈ (executeMultiSignal pm cfg sig env).2.1, isPlaceMarketOrder c = false)
    ∧ (executeMultiSignal pm cfg sig env).1.savedSignals =
        pm.savedSignals ++ [mkSignalRecord sig]
    ∧ (mkSignalRecord sig).executed = false := by
  have he : executeMultiSignal pm cfg sig env =
      ({ pm with savedSignals := pm.savedSignals ++ [mkSignalRecord sig] }, [],
        Except.error (PyError.attributeError "max_stop_loss_streak")) := by
    unfold executeMultiSignal
    rw [config_intAttr_streak cfg]
  rw [he]
  exact ⟨by intro c hc; simp at hc, rfl, rfl⟩

/-- Witness for C6: streak 3 against cap 3. -/
theorem c6_witness :
    (c1Config.max_stop_loss_trades ≤ (c6State.stopLossStreak : ℤ))
    ∧ ((∀ c ∈ (executeMultiSignal c6State c1Config c1Sig c1Env).2.1,
          isPlaceMarketOrder c = false)
      ∧ (executeMultiSignal c6State c1Config c1Sig c1Env).1.savedSignals =
          c6State.savedSignals ++ [mkSignalRecord c1Sig]
      ∧ (mkSignalRecord c1Sig).executed = false) :=
  ⟨by norm_num [c1Config, c6State, pmInit],
   c6_circuit_breaker_blocks_order c6State c1Config c1Sig c1Env
     (by norm_num [c1Config, c6State, pmInit])⟩

/-- C3: no auto-reset of the consecutive-stop-loss counter exists.  With a
streak of 5 whose last stop-loss lies arbitrarily far in the past (the
source keeps no `last_stop_loss_time` at all), the next main-loop iteration
leaves the streak at 5 — the iteration stops at the halt check's attribute
read and the exception is caught — and the next evaluation
(`execute_multi_signal`) also leaves it at 5, for every configuration and
environment. -/
theorem c3_no_time_based_streak_reset (cfg : Config) (env : CloseEnv)
    (sig : SignalResult) (oenv : OpenEnv) :
    mainLoopIter cfg c3State env =
      (c3State, LoopOutcome.errorCaught (PyError.attributeError "max_stop_loss_streak"))
    ∧ c3State.stopLossStreak = 5
    ∧ (executeMultiSignal c3State cfg sig oenv).1.stopLossStreak = 5 := by
  refine ⟨?_, rfl, ?_⟩
  · unfold mainLoopIter
    rw [config_intAttr_streak cfg]
  · unfold executeMultiSignal
    rw [config_intAttr_streak cfg]
    rfl

/-- C4: close-reason inference is not side-aware.  A Sell position with
entry 100, take-profit 99, stop-loss 101 closed at 101 — its stop-loss —
is classified "TP" by the source's comparison (the same comparison appears
in `_handle_position_closed` and in `OrderTracker._process_order_update`),
while the spec's side-aware rule classifies it "SL"; consequently the
stop-loss streak is not incremented on this stop-loss close. -/
theorem c4_close_reason_not_side_aware :
    inferCloseReason 101 99 101 = "TP"
    ∧ specSideAwareCloseReason "Sell" 101 99 101 = "SL"
    ∧ (handlePositionClosed pmInit c4Order c4Env).stopLossStreak = 0
    ∧ ("TP" : String) ≠ "SL" := by
  refine ⟨?_, ?_, ?_, by decide⟩
  · norm_num [inferCloseReason]
  · unfold specSideAwareCloseReason
    rw [if_neg (by decide : ¬ (("Sell" : String) = "Buy"))]
    norm_num
  · norm_num [handlePositionClosed, c4Order, c4Env, pmInit, inferCloseReason]
    rw [if_neg (by decide : ¬ (("Sell" : String) = "Buy"))]
    norm_num
    rw [if_neg (by decide : ¬ (("TP" : String) = "SL"))]

theorem mem_keys_dictInsert (a k : String) (v : OrderRecord)
    (l : List (String × OrderRecord)) :
    a ∈ (dictInsert k v l).map Prod.fst ↔ a = k ∨ a ∈ l.map Prod.fst := by
  induction l with
  | nil => simp [dictInsert]
  | cons p rest ih =>
      obtain ⟨k', v'⟩ := p
      by_cases h : k' = k
      · subst h
        simp [dictInsert]
      · simp [dictInsert, h, ih]
        tauto

theorem nodup_keys_dictInsert (k : String) (v : OrderRecord)
    (l : List (String × OrderRecord)) (hl : (l.map Prod.fst).Nodup) :
    ((dictInsert k v l).map Prod.fst).Nodup := by
  induction l with
  | nil => simp [dictInsert]
  | cons p rest ih =>
      obtain ⟨k', v'⟩ := p
      simp only [List.map_cons, List.nodup_cons] at hl
      by_cases h : k' = k
      · subst h
        simpa [dictInsert] using hl
      · simp only [dictInsert, if_neg h, List.map_cons, List.nodup_cons]
        refine ⟨?_, ih hl.2⟩
        rw [mem_keys_dictInsert]
        push_neg
        exact ⟨h, hl.1⟩

theorem exec_openPositions (pm : PMState) (cfg : Config) (sig : SignalResult)
    (env : OpenEnv) :
    (executeMultiSignal pm cfg sig env).1.openPositions = pm.openPositions := by
  unfold executeMultiSignal
  rw [config_intAttr_streak cfg]

theorem handle_openPositions (pm : PMState) (o : OrderRecord) (env : CloseEnv) :
    (handlePositionClosed pm o env).openPositions = pm.openPositions := by
  simp only [handlePositionClosed]
  split_ifs <;> rfl

theorem foldl_handle_openPositions (env : CloseEnv)
    (l : List (String × OrderRecord)) (pm : PMState) :
    ((l.foldl (fun s p => handlePositionClosed s p.2 env) pm)).openPositions =
      pm.openPositions := by
  induction l generalizing pm with
  | nil => rfl
  | cons p rest ih => rw [List.foldl_cons, ih, handle_openPositions]

theorem checkPositions_keys_sublist (pm : PMState) (env : CloseEnv) :
    ((checkPositions pm env).openPositions.map Prod.fst).Sublist
      (pm.openPositions.map Prod.fst) := by
  simp only [checkPositions]
  rw [foldl_handle_openPositions]
  exact (List.filter_sublist _).map Prod.fst

theorem nodup_keys_foldl_dictInsert (orders : List OrderRecord) :
    ∀ m : List (String × OrderRecord), (m.map Prod.fst).Nodup →
      ((orders.foldl (fun m o => dictInsert o.pairName o m) m).map Prod.fst).Nodup := by
  induction orders with
  | nil => exact fun m hm => hm
  | cons o rest ih =>
      intro m hm
      rw [List.foldl_cons]
      exact ih _ (nodup_keys_dictInsert _ _ _ hm)

theorem pmReach_keys_nodup (s : PMState) (hs : PMReach s) :
    (s.openPositions.map Prod.fst).Nodup := by
  induction hs with
  | init => simp [pmInit]
  | restore orders _ ih => exact nodup_keys_foldl_dictInsert orders _ ih
  | execMulti cfg sig env _ ih =>
      rw [exec_openPositions]
      exact ih
  | check env _ ih => exact (checkPositions_keys_sublist _ _).nodup ih

theorem countOpen_le_one_of_nodup (l : List (String × OrderRecord)) (name : String)
    (h : (l.map Prod.fst).Nodup) :
    (l.filter (fun p => p.1 == name && p.2.status == "OPEN")).length ≤ 1 := by
  have h1 : (l.filter (fun p => p.1 == name && p.2.status == "OPEN")).length ≤
      (l.map Prod.fst).count name := by
    rw [← List.countP_eq_length_filter, List.count, List.countP_map]
    exact List.countP_mono_left (fun p _ hp => by
      simp only [Function.comp] at *
      exact (Bool.and_eq_true _ _ ▸ hp).1)
  exact h1.trans (List.nodup_iff_count_le_one.mp h name)

/-- C2: at every state of the coordinator reachable by its composed
operations — startup restore, `execute_multi_signal`, `check_positions` —
the `open_positions` registry holds at most one OPEN order record per
strategy name: an entry is keyed by the strategy name (dict assignment), it
is inserted only by a successful `_open_multi_position`, and it is removed
only when `check_positions` reconciles the position as closed. -/
theorem c2_at_most_one_open_per_strategy (s : PMState) (hs : PMReach s)
    (name : String) : countOpenFor s name ≤ 1 :=
  countOpen_le_one_of_nodup _ name (pmReach_keys_nodup s hs)

/-- Witness for C2 at the initial coordinator state. -/
theorem c2_witness : countOpenFor pmInit "S" ≤ 1 :=
  c2_at_most_one_open_per_strategy pmInit PMReach.init "S"

/-- C5: the WS fan-out ignores the subscription timeframe.  With strategy X
registered for BTCUSDT at frame "1" and strategy Y at frame "5", a confirmed
bar arriving for BTCUSDT is delivered to both — including the subscriber
registered under a different timeframe than the stream the bar came from —
while an unconfirmed bar is delivered to nobody.  (The subscription key also
carries no category component at all; see `SubKey`.) -/
theorem c5_ws_fanout_ignores_timeframe :
    wsDeliveries c5State "BTCUSDT" c5Bar =
      [⟨"X", "BTCUSDT", "1", "websocket"⟩, ⟨"Y", "BTCUSDT", "5", "websocket"⟩]
    ∧ ("1" : String) ≠ "5"
    ∧ wsDeliveries c5State "BTCUSDT" { c5Bar with confirm := false } = [] :=
  ⟨by decide, by decide, by decide⟩

/-- Counterexample to C9 as stated: a signal with tick-window 1 gets buffers
of capacity 1 and a required length of 1, not `max(tick-window, 2) = 2`. -/
theorem c9_counterexample :
    bufferCapacity c9TickOne = 1
    ∧ requiredSize c9TickOne = 1
    ∧ max c9TickOne.tickWindow 2 = 2
    ∧ bufferCapacity c9TickOne ≠ max c9TickOne.tickWindow 2 :=
  ⟨rfl, rfl, rfl, by decide⟩

/-- C9 amended: the buffer capacity and the trigger's required length are
both `tick-window` when it is positive and `2` otherwise (they agree with
`max(tick-window, 2)` everywhere except tick-window = 1), the trigger
evaluates only when both the index and the trade-pair buffer hold at least
that many entries, and `_initialize_buffers` gives the index buffer and
every trade-pair buffer exactly that capacity. -/
theorem c9_buffer_capacity_and_gating (cfg : StrategyConfig) (sc : SignalConfig)
    (indexBuf pairBuf : List ℚ) (currentPrice : ℚ)
    (h : checkSignalPair cfg sc indexBuf pairBuf currentPrice ≠ TriggerOutcome.skip) :
    requiredSize sc ≤ indexBuf.length
    ∧ requiredSize sc ≤ pairBuf.length
    ∧ bufferCapacity sc = requiredSize sc
    ∧ (sc.tickWindow = 0 → requiredSize sc = 2)
    ∧ (0 < sc.tickWindow → requiredSize sc = sc.tickWindow)
    ∧ initializeBuffers cfg =
        cfg.signals.map (fun sig =>
          (sig.1, (requiredSize sig.2,
            cfg.tradePairs.map (fun p => (p, requiredSize sig.2))))) := by
  have h1 : ¬ indexBuf.length < requiredSize sc := by
    intro hlt
    apply h
    unfold checkSignalPair
    rw [if_pos hlt]
  have h2 : ¬ pairBuf.length < requiredSize sc := by
    intro hlt
    apply h
    unfold checkSignalPair
    rw [if_neg h1, if_pos hlt]
  exact ⟨not_lt.mp h1, not_lt.mp h2, rfl,
    fun h0 => by simp [requiredSize, h0],
    fun h0 => by simp [requiredSize, Nat.pos_iff_ne_zero.mp h0], rfl⟩

/-- Witness for C9's amended theorem: a tick-window-2 signal whose trigger
fires on concrete buffers. -/
theorem c9_witness :
    (checkSignalPair c5CfgX c9Wsc [100, 102] [50, 251 / 5] (251 / 5) ≠ TriggerOutcome.skip)
    ∧ (requiredSize c9Wsc ≤ ([100, 102] : List ℚ).length
      ∧ requiredSize c9Wsc ≤ ([50, 251 / 5] : List ℚ).length
      ∧ bufferCapacity c9Wsc = requiredSize c9Wsc
      ∧ (c9Wsc.tickWindow = 0 → requiredSize c9Wsc = 2)
      ∧ (0 < c9Wsc.tickWindow → requiredSize c9Wsc = c9Wsc.tickWindow)
      ∧ initializeBuffers c5CfgX =
          c5CfgX.signals.map (fun sig =>
            (sig.1, (requiredSize sig.2,
              c5CfgX.tradePairs.map (fun p => (p, requiredSize sig.2)))))) :=
  ⟨by (norm_num [checkSignalPair, c9Wsc, c5CfgX, requiredSize, shouldTakeSignal, abs_lt]; intro hc; cases hc),
   c9_buffer_capacity_and_gating c5CfgX c9Wsc [100, 102] [50, 251 / 5] (251 / 5)
     (by (norm_num [checkSignalPair, c9Wsc, c5CfgX, requiredSize, shouldTakeSignal, abs_lt]; intro hc; cases hc))⟩

theorem count_eq_one_of_mem_nodup {α : Type} [BEq α] [LawfulBEq α] {l : List α}
    {a : α} (hnd : l.Nodup) (ha : a ∈ l) : l.count a = 1 := by
  induction l with
  | nil => cases ha
  | cons x xs ih =>
      simp only [List.nodup_cons] at hnd
      rcases List.mem_cons.mp ha with h | h
      · subst h
        rw [List.count_cons_self]
        rw [show xs.count a = 0 from List.count_eq_zero.mpr hnd.1]
      · have hne : x ≠ a := fun he => hnd.1 (he ▸ h)
        rw [List.count_cons_of_ne (fun he => hne he.symm)]
        exact ih hnd.2 h

theorem entriesAt_set_subscriptions (st : GMDMState)
    (subs : List (SubKey × List SubscriptionRequest)) (k : SubKey) :
    entriesAt { st with subscriptions := subs } k = (lookupSubs subs k).getD [] := rfl

theorem entriesAt_set_registered (st : GMDMState) (l : List String) (k : SubKey) :
    entriesAt { st with registeredStrategies := l } k = entriesAt st k := rfl

theorem lookupSubs_setSubs_self (m : List (SubKey × List SubscriptionRequest))
    (k : SubKey) (l : List SubscriptionRequest) :
    lookupSubs (setSubs m k l) k = some l := by
  induction m with
  | nil => simp [setSubs, lookupSubs, List.find?]
  | cons e rest ih =>
      obtain ⟨k', l'⟩ := e
      by_cases h : k' = k
      · subst h
        simp [setSubs, lookupSubs, List.find?]
      · have hb : (k' == k) = false := by simp [h]
        simpa [setSubs, lookupSubs, List.find?, hb] using ih

theorem lookupSubs_setSubs_ne (m : List (SubKey × List SubscriptionRequest))
    (k k2 : SubKey) (l : List SubscriptionRequest) (h : k2 ≠ k) :
    lookupSubs (setSubs m k l) k2 = lookupSubs m k2 := by
  have hsymm : ¬ (k = k2) := fun he => h he.symm
  induction m with
  | nil =>
      have hb : (k == k2) = false := by simp [hsymm]
      simp [setSubs, lookupSubs, List.find?, hb]
  | cons e rest ih =>
      obtain ⟨k', l'⟩ := e
      by_cases hk : k' = k
      · subst hk
        have hb : (k' == k2) = false := by simp [hsymm]
        simp [setSubs, lookupSubs, List.find?, hb]
      · have hb : (k' == k) = false := by simp [hk]
        by_cases hk2 : k' = k2
        · subst hk2
          simp [setSubs, lookupSubs, List.find?, hb]
        · have hb2 : (k' == k2) = false := by simp [hk2]
          simpa [setSubs, lookupSubs, List.find?, hb, hb2] using ih

theorem entriesAt_addSubscription_self (st : GMDMState) (n sym fr ty : String) :
    entriesAt (addSubscription st n sym fr ty) (sym, fr) =
      (if (entriesAt st (sym, fr)).any (fun s => s.strategyName == n)
       then entriesAt st (sym, fr)
       else entriesAt st (sym, fr) ++ [⟨n, sym, fr, ty⟩]) := by
  by_cases hany : (entriesAt st (sym, fr)).any (fun s => s.strategyName == n)
  · rw [if_pos hany]
    simp only [addSubscription]
    rw [if_pos hany, entriesAt_set_subscriptions, lookupSubs_setSubs_self]
    rfl
  · rw [if_neg hany]
    simp only [addSubscription]
    rw [if_neg hany, entriesAt_set_subscriptions, lookupSubs_setSubs_self]
    rfl

theorem entriesAt_addSubscription_ne (st : GMDMState) (n sym fr ty : String)
    (k : SubKey) (hk : k ≠ (sym, fr)) :
    entriesAt (addSubscription st n sym fr ty) k = entriesAt st k := by
  simp only [addSubscription]
  split_ifs with hany <;>
    rw [entriesAt_set_subscriptions, lookupSubs_setSubs_ne _ _ _ _ hk] <;> rfl

theorem registered_addSubscription (st : GMDMState) (n sym fr ty : String) :
    (addSubscription st n sym fr ty).registeredStrategies = st.registeredStrategies := by
  simp only [addSubscription]
  split_ifs <;> rfl

theorem registered_processRequests (n : String)
    (reqs : List (String × String × String)) :
    ∀ st : GMDMState,
      (processRequests n reqs st).registeredStrategies = st.registeredStrategies := by
  induction reqs with
  | nil => intro st; rfl
  | cons r rest ih =>
      obtain ⟨sym, fr, ty⟩ := r
      intro st
      show (processRequests n rest (addSubscription st n sym fr ty)).registeredStrategies = _
      rw [ih, registered_addSubscription]

theorem entriesAt_processRequests_present (n : String)
    (reqs : List (String × String × String)) :
    ∀ (st : GMDMState) (k : SubKey),
      (∃ e ∈ entriesAt st k, e.strategyName = n) →
      entriesAt (processRequests n reqs st) k = entriesAt st k := by
  induction reqs with
  | nil => intro st k _; rfl
  | cons r rest ih =>
      obtain ⟨sym, fr, ty⟩ := r
      intro st k hex
      show entriesAt (processRequests n rest (addSubscription st n sym fr ty)) k = _
      by_cases hk : k = ((sym, fr) : SubKey)
      · subst hk
        have hany : (entriesAt st (sym, fr)).any (fun s => s.strategyName == n) = true := by
          obtain ⟨e, he, hname⟩ := hex
          exact List.any_eq_true.mpr ⟨e, he, by simp [hname]⟩
        have hsame : entriesAt (addSubscription st n sym fr ty) (sym, fr) =
            entriesAt st (sym, fr) := by
          rw [entriesAt_addSubscription_self, if_pos hany]
        rw [ih _ _ (by rw [hsame]; exact hex), hsame]
      · have hsame := entriesAt_addSubscription_ne st n sym fr ty k hk
        rw [ih _ _ (by rw [hsame]; exact hex), hsame]

theorem entriesAt_processRequests_absent (n : String)
    (reqs : List (String × String × String)) :
    ∀ (st : GMDMState) (k : SubKey),
      (∀ e ∈ entriesAt st k, e.strategyName ≠ n) →
      entriesAt (processRequests n reqs st) k =
        entriesAt st k ++
          (match reqs.find? (fun r => (r.1, r.2.1) == k) with
           | some r => [⟨n, r.1, r.2.1, r.2.2⟩]
           | none => []) := by
  induction reqs with
  | nil =>
      intro st k _
      show entriesAt st k = entriesAt st k ++ _
      simp [List.find?]
  | cons r rest ih =>
      obtain ⟨sym, fr, ty⟩ := r
      intro st k habs
      show entriesAt (processRequests n rest (addSubscription st n sym fr ty)) k = _
      by_cases hk : ((sym, fr) : SubKey) = k
      · subst hk
        have hany : (entriesAt st (sym, fr)).any (fun s => s.strategyName == n) = false := by
          rw [List.any_eq_false]
          intro e he
          simp [habs e he]
        have hnew : entriesAt (addSubscription st n sym fr ty) (sym, fr) =
            entriesAt st (sym, fr) ++ [⟨n, sym, fr, ty⟩] := by
          rw [entriesAt_addSubscription_self, hany]
          simp
        rw [entriesAt_processRequests_present n rest _ _
            ⟨⟨n, sym, fr, ty⟩, by rw [hnew]; exact List.mem_append_right _ (by simp), rfl⟩,
          hnew]
        have hpred : ((((sym, fr, ty) : String × String × String).1,
            (sym, fr, ty).2.1) == ((sym, fr) : SubKey)) = true := by simp
        simp [List.find?, hpred]
      · have hne2 : k ≠ ((sym, fr) : SubKey) := fun h => hk h.symm
        have hsame := entriesAt_addSubscription_ne st n sym fr ty k hne2
        rw [ih _ _ (by rw [hsame]; exact habs), hsame]
        have hpred : ((((sym, fr, ty) : String × String × String).1,
            (sym, fr, ty).2.1) == k) = false := by simp [hk]
        simp only [List.find?, hpred]

theorem regRequests_srcType (cfg : StrategyConfig) :
    ∀ r ∈ regRequests cfg, r.2.2 = sourceTypeFor r.2.1 := by
  intro r hr
  unfold regRequests at hr
  rw [List.mem_flatMap] at hr
  obtain ⟨sig, _, hmem⟩ := hr
  rcases List.mem_cons.mp hmem with h | h
  · rw [h]
  · obtain ⟨p, _, hpe⟩ := List.mem_map.mp h
    rw [← hpe]

theorem find?_req_eq (reqs : List (String × String × String)) (sym f : String)
    (hmem : (sym, f) ∈ reqs.map (fun r => (r.1, r.2.1)))
    (hty : ∀ r ∈ reqs, r.2.2 = sourceTypeFor r.2.1) :
    reqs.find? (fun r => (r.1, r.2.1) == ((sym, f) : SubKey)) =
      some (sym, f, sourceTypeFor f) := by
  obtain ⟨r0, hr0, hkey⟩ := List.mem_map.mp hmem
  have hsome : (reqs.find? (fun r => (r.1, r.2.1) == ((sym, f) : SubKey))).isSome := by
    rw [List.find?_isSome]
    exact ⟨r0, hr0, by simp [hkey]⟩
  obtain ⟨r, hr⟩ := Option.isSome_iff_exists.mp hsome
  obtain ⟨a, b, c⟩ := r
  have hpred := List.find?_some hr
  have hmemr := List.mem_of_find?_eq_some hr
  simp only [beq_iff_eq, Prod.mk.injEq] at hpred
  have hc : c = sourceTypeFor f := by
    have := hty _ hmemr
    simp only [] at this
    rw [this, hpred.2]
  rw [hr, hpred.1, hpred.2, hc]

theorem mem_keys_setSubs (a k : SubKey) (l : List SubscriptionRequest) :
    ∀ m, a ∈ (setSubs m k l).map Prod.fst ↔ a = k ∨ a ∈ m.map Prod.fst := by
  intro m
  induction m with
  | nil => simp [setSubs]
  | cons e rest ih =>
      obtain ⟨k', l'⟩ := e
      by_cases h : k' = k
      · subst h
        simp [setSubs]
      · have hb : (k' == k) = false := by simp [h]
        simp [setSubs, hb, ih]
        tauto

theorem nodup_keys_setSubs (k : SubKey) (l : List SubscriptionRequest) :
    ∀ m, (m.map Prod.fst).Nodup → ((setSubs m k l).map Prod.fst).Nodup := by
  intro m
  induction m with
  | nil => simp [setSubs]
  | cons e rest ih =>
      obtain ⟨k', l'⟩ := e
      intro hm
      simp only [List.map_cons, List.nodup_cons] at hm
      by_cases h : k' = k
      · subst h
        simpa [setSubs] using hm
      · have hb : (k' == k) = false := by simp [h]
        simp only [setSubs, hb, Bool.false_eq_true, if_false, List.map_cons,
          List.nodup_cons]
        refine ⟨?_, ih hm.2⟩
        rw [mem_keys_setSubs]
        push_neg
        exact ⟨h, hm.1⟩

theorem nodup_keys_addSubscription (st : GMDMState) (n sym fr ty : String)
    (h : (st.subscriptions.map Prod.fst).Nodup) :
    ((addSubscription st n sym fr ty).subscriptions.map Prod.fst).Nodup := by
  simp only [addSubscription]
  split_ifs <;> exact nodup_keys_setSubs _ _ _ h

theorem nodup_keys_processRequests (n : String)
    (reqs : List (String × String × String)) :
    ∀ st : GMDMState, (st.subscriptions.map Prod.fst).Nodup →
      ((processRequests n reqs st).subscriptions.map Prod.fst).Nodup := by
  induction reqs with
  | nil => exact fun st h => h
  | cons r rest ih =>
      obtain ⟨sym, fr, ty⟩ := r
      intro st h
      exact ih _ (nodup_keys_addSubscription st n sym fr ty h)

theorem nodup_keys_registerStrategy (st : GMDMState) (cfg : StrategyConfig)
    (h : (st.subscriptions.map Prod.fst).Nodup) :
    ((registerStrategy st cfg).subscriptions.map Prod.fst).Nodup := by
  unfold registerStrategy
  split_ifs with hmem
  · exact h
  · exact nodup_keys_processRequests cfg.name (regRequests cfg) st h

theorem mem_subscriptions_of_entriesAt (st : GMDMState) (k : SubKey)
    (l : List SubscriptionRequest) (h : entriesAt st k = l) (hne : l ≠ []) :
    (k, l) ∈ st.subscriptions := by
  unfold entriesAt lookupSubs at h
  cases hfind : st.subscriptions.find? (fun e => e.1 == k) with
  | none =>
      rw [hfind] at h
      simp at h
      exact absurd h hne
  | some e =>
      rw [hfind] at h
      simp at h
      have hmem := List.mem_of_find?_eq_some hfind
      have hpred := List.find?_some hfind
      simp only [beq_iff_eq] at hpred
      obtain ⟨ek, el⟩ := e
      simp only [] at hpred h
      rw [← hpred, ← h]
      exact hmem

theorem mem_wsDeliveries (st : GMDMState) (sym : String) (kl : Kline)
    (hc : kl.confirm = true) (k : SubKey) (l : List SubscriptionRequest)
    (hmem : (k, l) ∈ st.subscriptions) (hsym : k.1 = sym)
    (e : SubscriptionRequest) (he : e ∈ l) (hws : e.sourceType = "websocket") :
    e ∈ wsDeliveries st sym kl := by
  unfold wsDeliveries
  rw [hc]
  simp only [Bool.not_true, Bool.false_eq_true, if_false]
  exact List.mem_flatMap.mpr
    ⟨(k, l), List.mem_filter.mpr ⟨hmem, by simp [hsym]⟩,
      List.mem_filter.mpr ⟨he, by simp [hws]⟩⟩

theorem registerStrategy_idem (st : GMDMState) (cfg : StrategyConfig) :
    registerStrategy (registerStrategy st cfg) cfg = registerStrategy st cfg := by
  by_cases h : cfg.name ∈ st.registeredStrategies
  · have h1 : registerStrategy st cfg = st := by
      unfold registerStrategy
      rw [if_pos h]
    rw [h1, h1]
  · have h1 : registerStrategy st cfg =
        { processRequests cfg.name (regRequests cfg) st with
          registeredStrategies :=
            (processRequests cfg.name (regRequests cfg) st).registeredStrategies ++
              [cfg.name] } := by
      unfold registerStrategy
      rw [if_neg h]
    have h2 : cfg.name ∈ (registerStrategy st cfg).registeredStrategies := by
      rw [h1]
      exact List.mem_append_right _ (by simp)
    generalize hX : registerStrategy st cfg = X at h2 ⊢
    unfold registerStrategy
    rw [if_pos h2]

theorem entriesAt_registerStrategy_fresh (st : GMDMState) (cfg : StrategyConfig)
    (k : SubKey) (hreg : cfg.name ∉ st.registeredStrategies)
    (habs : ∀ e ∈ entriesAt st k, e.strategyName ≠ cfg.name) :
    entriesAt (registerStrategy st cfg) k =
      entriesAt st k ++
        (match (regRequests cfg).find? (fun r => (r.1, r.2.1) == k) with
         | some r => [⟨cfg.name, r.1, r.2.1, r.2.2⟩]
         | none => []) := by
  unfold registerStrategy
  rw [if_neg hreg, entriesAt_set_registered,
    entriesAt_processRequests_absent cfg.name (regRequests cfg) st k habs]

theorem entriesAt_gmdmInit (k : SubKey) : entriesAt gmdmInit k = [] := rfl

theorem entriesAt_two_registrations (cfgA cfgB : StrategyConfig) (sym f : String)
    (hne : cfgA.name ≠ cfgB.name)
    (hA : (sym, f) ∈ (regRequests cfgA).map (fun r => (r.1, r.2.1)))
    (hB : (sym, f) ∈ (regRequests cfgB).map (fun r => (r.1, r.2.1))) :
    entriesAt (registerStrategy (registerStrategy gmdmInit cfgA) cfgB) (sym, f) =
      [⟨cfgA.name, sym, f, sourceTypeFor f⟩, ⟨cfgB.name, sym, f, sourceTypeFor f⟩] := by
  have hfA := find?_req_eq (regRequests cfgA) sym f hA (regRequests_srcType cfgA)
  have hfB := find?_req_eq (regRequests cfgB) sym f hB (regRequests_srcType cfgB)
  have h1 : entriesAt (registerStrategy gmdmInit cfgA) (sym, f) =
      [⟨cfgA.name, sym, f, sourceTypeFor f⟩] := by
    rw [entriesAt_registerStrategy_fresh gmdmInit cfgA (sym, f) (by simp [gmdmInit])
        (by rw [entriesAt_gmdmInit]; intro e he; cases he),
      entriesAt_gmdmInit, hfA]
    rfl
  have hregA : (registerStrategy gmdmInit cfgA).registeredStrategies = [cfgA.name] := by
    unfold registerStrategy
    rw [if_neg (by simp [gmdmInit])]
    show (processRequests cfgA.name (regRequests cfgA) gmdmInit).registeredStrategies ++
        [cfgA.name] = [cfgA.name]
    rw [registered_processRequests]
    rfl
  rw [entriesAt_registerStrategy_fresh (registerStrategy gmdmInit cfgA) cfgB (sym, f)
      (by rw [hregA]; simp; exact fun h => hne h.symm)
      (by rw [h1]; intro e he; rw [List.mem_singleton.mp he]; exact hne),
    h1, hfB]
  rfl

/-- C7: strategy registration is idempotent per strategy name, and two
distinct strategies registering the same (symbol, timeframe) key produce one
key with exactly two subscriber entries; `_start_websocket_subscriptions`
opens exactly one WS stream for that key, and every confirmed bar for the
symbol is delivered to both subscribers.  (The manager holds a single
`market_category` for all keys, so the two registrations share the same
category by construction.) -/
theorem c7_registration_idempotent_and_dedup (cfgA cfgB : StrategyConfig)
    (sym f : String) (hne : cfgA.name ≠ cfgB.name)
    (hA : (sym, f) ∈ (regRequests cfgA).map (fun r => (r.1, r.2.1)))
    (hB : (sym, f) ∈ (regRequests cfgB).map (fun r => (r.1, r.2.1)))
    (hws : sourceTypeFor f = "websocket") :
    (∀ (st : GMDMState) (cfg : StrategyConfig),
        registerStrategy (registerStrategy st cfg) cfg = registerStrategy st cfg)
    ∧ entriesAt (registerStrategy (registerStrategy gmdmInit cfgA) cfgB) (sym, f) =
        [⟨cfgA.name, sym, f, sourceTypeFor f⟩, ⟨cfgB.name, sym, f, sourceTypeFor f⟩]
    ∧ (wsKeys (registerStrategy (registerStrategy gmdmInit cfgA) cfgB)).count (sym, f) = 1
    ∧ ∀ kl : Kline, kl.confirm = true →
        (⟨cfgA.name, sym, f, sourceTypeFor f⟩ : SubscriptionRequest) ∈
            wsDeliveries (registerStrategy (registerStrategy gmdmInit cfgA) cfgB) sym kl
        ∧ (⟨cfgB.name, sym, f, sourceTypeFor f⟩ : SubscriptionRequest) ∈
            wsDeliveries (registerStrategy (registerStrategy gmdmInit cfgA) cfgB) sym kl := by
  have hent := entriesAt_two_registrations cfgA cfgB sym f hne hA hB
  have hsub : ((sym, f),
      [(⟨cfgA.name, sym, f, sourceTypeFor f⟩ : SubscriptionRequest),
       ⟨cfgB.name, sym, f, sourceTypeFor f⟩]) ∈
      (registerStrategy (registerStrategy gmdmInit cfgA) cfgB).subscriptions :=
    mem_subscriptions_of_entriesAt _ _ _ hent (by simp)
  have hnd : (((registerStrategy (registerStrategy gmdmInit cfgA) cfgB).subscriptions.map
      Prod.fst)).Nodup :=
    nodup_keys_registerStrategy _ cfgB
      (nodup_keys_registerStrategy _ cfgA (by simp [gmdmInit]))
  refine ⟨registerStrategy_idem, hent, ?_, ?_⟩
  · have hndk : (wsKeys (registerStrategy (registerStrategy gmdmInit cfgA) cfgB)).Nodup := by
      unfold wsKeys
      exact (((List.filter_sublist _).map Prod.fst)).nodup hnd
    have hk : (sym, f) ∈ wsKeys (registerStrategy (registerStrategy gmdmInit cfgA) cfgB) := by
      unfold wsKeys
      refine List.mem_map.mpr ⟨_, List.mem_filter.mpr ⟨hsub, ?_⟩, rfl⟩
      simp [hws]
    exact count_eq_one_of_mem_nodup hndk hk
  · intro kl hc
    exact ⟨mem_wsDeliveries _ _ _ hc _ _ hsub rfl _ (by simp) (by rw [hws]),
      mem_wsDeliveries _ _ _ hc _ _ hsub rfl _ (by simp) (by rw [hws])⟩

/-- Witness for C7: strategies A and B with identical BTCUSDT/1-minute
subscriptions. -/
theorem c7_witness :
    c7A.name ≠ c7B.name
    ∧ ("BTCUSDT", "1") ∈ (regRequests c7A).map (fun r => (r.1, r.2.1))
    ∧ ("BTCUSDT", "1") ∈ (regRequests c7B).map (fun r => (r.1, r.2.1))
    ∧ sourceTypeFor "1" = "websocket"
    ∧ ((∀ (st : GMDMState) (cfg : StrategyConfig),
        registerStrategy (registerStrategy st cfg) cfg = registerStrategy st cfg)
      ∧ entriesAt (registerStrategy (registerStrategy gmdmInit c7A) c7B) ("BTCUSDT", "1") =
          [⟨c7A.name, "BTCUSDT", "1", sourceTypeFor "1"⟩,
           ⟨c7B.name, "BTCUSDT", "1", sourceTypeFor "1"⟩]
      ∧ (wsKeys (registerStrategy (registerStrategy gmdmInit c7A) c7B)).count
          ("BTCUSDT", "1") = 1
      ∧ ∀ kl : Kline, kl.confirm = true →
          (⟨c7A.name, "BTCUSDT", "1", sourceTypeFor "1"⟩ : SubscriptionRequest) ∈
              wsDeliveries (registerStrategy (registerStrategy gmdmInit c7A) c7B)
                "BTCUSDT" kl
          ∧ (⟨c7B.name, "BTCUSDT", "1", sourceTypeFor "1"⟩ : SubscriptionRequest) ∈
              wsDeliveries (registerStrategy (registerStrategy gmdmInit c7A) c7B)
                "BTCUSDT" kl) :=
  ⟨by decide, by decide, by decide, by decide,
   c7_registration_idempotent_and_dedup c7A c7B "BTCUSDT" "1" (by decide) (by decide)
     (by decide) (by decide)⟩

end CryptoBot
